import Mathlib

/-!
Verification development for a two-variant board-game platform
(Gomoku / Go) with a controller, a CLI and a GUI front end.

The controller (`core/controller.py`) and the two user interfaces
(`ui/cli.py`, `ui/gui.py`) are embedded from their sources.  The rule
engines, the data models and the persistence codec live in modules that
only the embedded files import (`core/models.py`, `games/gomoku.py`,
`games/go.py`, `core/persistence.py`); those parts are modelled from the
specification and are marked as such in their doc comments.
-/

namespace ChessPlatform

/-- Player color; mirrors `PlayerColor` from `core/models.py`
(modelled from the spec: enum {Black, White}, Black moves first). -/
inductive PlayerColor
  | black
  | white
deriving DecidableEq

/-- Opposite color. -/
def opponent : PlayerColor → PlayerColor
  | .black => .white
  | .white => .black

/-- The two rule variants; mirrors `GameType` from `core/models.py`
(modelled from the spec: closed enum {Gomoku, Go}). -/
inductive GameType
  | gomoku
  | go
deriving DecidableEq

/-- The string value of a variant tag (`GameType.value` in Python).
Modelled from the spec: the closed enumeration of variant tags. -/
def GameType.value : GameType → String
  | .gomoku => "gomoku"
  | .go => "go"

/-- Modelled from the spec: `game_type_from_string` of `core/models.py`,
mapping a user-supplied game-type string to a variant or failing. -/
def gameTypeFromString (s : String) : Option GameType :=
  if s = "gomoku" then some .gomoku
  else if s = "go" then some .go
  else none

/-- Cause of a game ending, from the spec's `GameResult.reason`. -/
inductive EndReason
  | fiveInRow
  | resignation
  | passScored
  | boardFullDraw
deriving DecidableEq

/-- Result attached to a finished game (`GameResult` in `core/models.py`,
modelled from the spec). -/
structure GameResult where
  winner : Option PlayerColor
  reason : EndReason
deriving DecidableEq

/-- Engine status: in progress or finished with a result. -/
inductive Status
  | inProgress
  | finished (r : GameResult)
deriving DecidableEq

/-- Per-color resource counters (modelled from the spec's ResourceLedger). -/
structure PlayerRes where
  stonesRemaining : Nat
  undosRemaining : Nat
deriving DecidableEq

/-- Both colors' resource counters. -/
structure ResourceLedger where
  black : PlayerRes
  white : PlayerRes
deriving DecidableEq

/-- Counters of one color. -/
def ResourceLedger.res (l : ResourceLedger) : PlayerColor → PlayerRes
  | .black => l.black
  | .white => l.white

/-- Decrement the stone stock of one color (placement). -/
def decStones (l : ResourceLedger) : PlayerColor → ResourceLedger
  | .black => { l with black := { l.black with stonesRemaining := l.black.stonesRemaining - 1 } }
  | .white => { l with white := { l.white with stonesRemaining := l.white.stonesRemaining - 1 } }

/-- Increment the stone stock of one color (undo of a placement). -/
def incStones (l : ResourceLedger) : PlayerColor → ResourceLedger
  | .black => { l with black := { l.black with stonesRemaining := l.black.stonesRemaining + 1 } }
  | .white => { l with white := { l.white with stonesRemaining := l.white.stonesRemaining + 1 } }

/-- Decrement the undo budget of one color (successful undo). -/
def decUndos (l : ResourceLedger) : PlayerColor → ResourceLedger
  | .black => { l with black := { l.black with undosRemaining := l.black.undosRemaining - 1 } }
  | .white => { l with white := { l.white with undosRemaining := l.white.undosRemaining - 1 } }

/-- One recorded action of the move history.  Modelled from the spec:
each entry captures the board delta (placed position, captured positions
with their prior colors, previous ko marker and other rule-specific
markers, previous current player) so it can be exactly reversed.
Positions are flat indices `row * size + col`. -/
inductive HistEntry
  | place (idx : Nat) (captured : List (Nat × PlayerColor))
      (prevKo : Option Nat) (prevPass : Nat) (prevPlayer : PlayerColor)
  | passAct (prevKo : Option Nat) (prevPass : Nat) (prevPlayer : PlayerColor)
  | resignAct (c : PlayerColor)
deriving DecidableEq

/-- Full engine state, the `EngineState` of the spec.  The board is a
mapping from flat cell index (`row * size + col`) to an optional stone.
`variant` realizes the spec's closed two-variant dispatch; `koMarker`
and `passCount` are Go's rule-specific fields (unused by Gomoku). -/
@[ext] structure EngineState where
  variant : GameType
  size : Nat
  board : Nat → Option PlayerColor
  ledger : ResourceLedger
  history : List HistEntry
  currentPlayer : PlayerColor
  status : Status
  koMarker : Option Nat
  passCount : Nat

/-- Point update of a board mapping. -/
def setCell (b : Nat → Option PlayerColor) (i : Nat) (v : Option PlayerColor) :
    Nat → Option PlayerColor :=
  fun j => if j = i then v else b j

/-- Remove every listed cell from the board. -/
def removeAll : (Nat → Option PlayerColor) → List Nat → Nat → Option PlayerColor
  | b, [] => b
  | b, p :: ps => removeAll (setCell b p none) ps

/-- Restore every listed cell to its recorded prior color. -/
def restoreAll : (Nat → Option PlayerColor) → List (Nat × PlayerColor) → Nat → Option PlayerColor
  | b, [] => b
  | b, pc :: ps => restoreAll (setCell b pc.1 (some pc.2)) ps

/-- Orthogonal neighbors of a flat cell index on an `n × n` board. -/
def neighbors (n i : Nat) : List Nat :=
  let r := i / n
  let c := i % n
  (if 0 < r then [i - n] else []) ++ (if r + 1 < n then [i + n] else []) ++
    (if 0 < c then [i - 1] else []) ++ (if c + 1 < n then [i + 1] else [])

/-- Fuel-bounded flood fill collecting the connected cells whose content
equals `target`, starting from the given stack.  Modelled from the spec:
liberties and groups are computed "via flood fill over same-colored
connected cells", and empty territory regions by flood fill over empty
cells. -/
def floodFill (n : Nat) (b : Nat → Option PlayerColor) (target : Option PlayerColor) :
    Nat → List Nat → List Nat → List Nat
  | 0, _, acc => acc
  | _ + 1, [], acc => acc
  | fuel + 1, p :: rest, acc =>
    if p ∈ acc then floodFill n b target fuel rest acc
    else if b p = target then floodFill n b target fuel (neighbors n p ++ rest) (p :: acc)
    else floodFill n b target fuel rest acc

/-- Fuel that always suffices for a flood fill on an `n × n` board. -/
def floodFuel (n : Nat) : Nat := 5 * n * n + 5

/-- Whether a group of cells has at least one liberty (an empty
orthogonally adjacent cell). -/
def groupHasLiberty (n : Nat) (b : Nat → Option PlayerColor) (g : List Nat) : Bool :=
  g.any fun p => (neighbors n p).any fun q => b q = none

/-- Walk the candidate start cells; whenever a start holds a stone of
color `k`, flood its group and, if the group has no liberty, add the
whole group to the captured list. -/
def capturesLoop (n : Nat) (b : Nat → Option PlayerColor) (k : PlayerColor) :
    List Nat → List Nat → List Nat
  | [], acc => acc
  | q :: qs, acc =>
    if b q = some k then
      let g := floodFill n b (some k) (floodFuel n) [q] []
      if groupHasLiberty n b g then capturesLoop n b k qs acc
      else capturesLoop n b k qs (acc ++ g)
    else capturesLoop n b k qs acc

/-- Modelled from the spec (§4.4 resolution order, step 2): after the
stone of `mover` is placed at `i` on board `b`, every orthogonally
adjacent opposing group with zero liberties is fully removed. -/
def computeCaptures (n : Nat) (b : Nat → Option PlayerColor) (mover : PlayerColor)
    (i : Nat) : List Nat :=
  capturesLoop n b (opponent mover) (neighbors n i) []

/-- Modelled from the spec (§4.4, step 4): the new ko marker after a Go
placement — set when exactly one stone was captured and the mover's
resulting group is a single stone whose only liberty is the captured
point, cleared otherwise. -/
def koPoint (n : Nat) (b2 : Nat → Option PlayerColor) (mover : PlayerColor)
    (i : Nat) (caps : List Nat) : Option Nat :=
  match caps with
  | [c] =>
    if floodFill n b2 (some mover) (floodFuel n) [i] [] = [i] ∧
        (neighbors n i).filter (fun q => b2 q = none) = [c] then some c
    else none
  | _ => none

/-- Signed-coordinate board access with bounds checking. -/
def cellAt (n : Nat) (b : Nat → Option PlayerColor) (r c : Int) : Option PlayerColor :=
  if 0 ≤ r ∧ r < n ∧ 0 ≤ c ∧ c < n then b (r.toNat * n + c.toNat) else none

/-- Count the contiguous stones of color `col` starting one step from
`(r, c)` in direction `(dr, dc)`, with fuel `k`. -/
def countDir (n : Nat) (b : Nat → Option PlayerColor) (col : PlayerColor)
    (r c dr dc : Int) : Nat → Nat
  | 0 => 0
  | k + 1 =>
    if cellAt n b (r + dr) (c + dc) = some col then
      1 + countDir n b col (r + dr) (c + dc) dr dc k
    else 0

/-- Modelled from the spec (§4.3): after a Gomoku placement, scan the
four axis directions through the new stone; a contiguous run of at
least five same-colored stones wins. -/
def fiveInRow (n : Nat) (b : Nat → Option PlayerColor) (col : PlayerColor)
    (row colIdx : Nat) : Bool :=
  [((0 : Int), (1 : Int)), (1, 0), (1, 1), (1, -1)].any fun d =>
    5 ≤ 1 + countDir n b col row colIdx d.1 d.2 n + countDir n b col row colIdx (-d.1) (-d.2) n

/-- Whether every cell of the board holds a stone. -/
def boardFull (n : Nat) (b : Nat → Option PlayerColor) : Bool :=
  (List.range (n * n)).all fun i => (b i).isSome

/-- Status after a Gomoku placement: five-in-a-row win, board-full
draw, or still in progress (spec §4.3). -/
def gomokuStatus (n : Nat) (b : Nat → Option PlayerColor) (mover : PlayerColor)
    (row col : Nat) : Status :=
  if fiveInRow n b mover row col then .finished ⟨some mover, .fiveInRow⟩
  else if boardFull n b then .finished ⟨none, .boardFullDraw⟩
  else .inProgress

/-- Rule-engine failure reasons (spec §4.2 / §7). -/
inductive RuleErr
  | gameFinished
  | outOfBounds
  | occupiedCell
  | stockExhausted
  | illegalKo
  | suicide
  | noMovesToUndo
  | undoExhausted
  | unsupportedOperation
deriving DecidableEq

/-- The state produced by a successful placement: stone placed,
captured groups removed, stock decremented, delta pushed on the
history, player toggled (spec §4.2 `play_move` success effects). -/
def applyCore (s : EngineState) (i : Nat) (caps : List Nat) (st : Status)
    (nko : Option Nat) (npass : Nat) : EngineState :=
  { variant := s.variant
    size := s.size
    board := removeAll (setCell s.board i (some s.currentPlayer)) caps
    ledger := decStones s.ledger s.currentPlayer
    history := .place i (caps.map fun p => (p, opponent s.currentPlayer))
      s.koMarker s.passCount s.currentPlayer :: s.history
    currentPlayer := opponent s.currentPlayer
    status := st
    koMarker := nko
    passCount := npass }

/-- Modelled from the spec: `play_move` of the rule-engine contract
(§4.2), with Gomoku legality and win detection (§4.3) and Go
ko/capture/suicide resolution (§4.4).  `row`/`col` are 0-indexed. -/
def applyMove (s : EngineState) (row col : Nat) : Except RuleErr EngineState :=
  match s.status with
  | .finished _ => .error .gameFinished
  | .inProgress =>
    if row < s.size ∧ col < s.size then
      let i := row * s.size + col
      if s.board i = none then
        if 0 < (s.ledger.res s.currentPlayer).stonesRemaining then
          match s.variant with
          | .gomoku =>
            let b1 := setCell s.board i (some s.currentPlayer)
            .ok (applyCore s i [] (gomokuStatus s.size b1 s.currentPlayer row col)
              s.koMarker s.passCount)
          | .go =>
            if s.koMarker = some i then .error .illegalKo
            else
              let b1 := setCell s.board i (some s.currentPlayer)
              let caps := computeCaptures s.size b1 s.currentPlayer i
              let b2 := removeAll b1 caps
              if groupHasLiberty s.size b2
                  (floodFill s.size b2 (some s.currentPlayer) (floodFuel s.size) [i] []) then
                .ok (applyCore s i caps .inProgress (koPoint s.size b2 s.currentPlayer i caps) 0)
              else .error .suicide
        else .error .stockExhausted
      else .error .occupiedCell
    else .error .outOfBounds

/-- Modelled from the spec: `undo` of the rule-engine contract (§4.2) —
pops the most recent history entry, exactly reverses its recorded
delta, and decrements the reverting player's undo budget; fails once
the game is terminal, when there is nothing to undo, or when the undo
budget is exhausted. -/
def undoEngine (s : EngineState) : Except RuleErr EngineState :=
  match s.status with
  | .finished _ => .error .gameFinished
  | .inProgress =>
    match s.history with
    | [] => .error .noMovesToUndo
    | .place i capsRec prevKo prevPass prevPlayer :: rest =>
      if (s.ledger.res prevPlayer).undosRemaining = 0 then .error .undoExhausted
      else
        .ok { variant := s.variant
              size := s.size
              board := setCell (restoreAll s.board capsRec) i none
              ledger := decUndos (incStones s.ledger prevPlayer) prevPlayer
              history := rest
              currentPlayer := prevPlayer
              status := .inProgress
              koMarker := prevKo
              passCount := prevPass }
    | .passAct prevKo prevPass prevPlayer :: rest =>
      if (s.ledger.res prevPlayer).undosRemaining = 0 then .error .undoExhausted
      else
        .ok { s with ledger := decUndos s.ledger prevPlayer
                     history := rest
                     currentPlayer := prevPlayer
                     koMarker := prevKo
                     passCount := prevPass }
    | .resignAct _ :: _ =>
      -- a resign entry is only ever pushed together with a Finished
      -- status, so this branch is unreachable from an InProgress state
      .error .noMovesToUndo

/-- Modelled from the spec: `resign(color)` (§4.2) — fails once
terminal, otherwise immediately finishes with the opposite color as
winner and resignation as the reason. -/
def resignEngine (s : EngineState) (c : PlayerColor) : Except RuleErr EngineState :=
  match s.status with
  | .finished _ => .error .gameFinished
  | .inProgress =>
    .ok { s with status := .finished ⟨some (opponent c), .resignation⟩
                 history := .resignAct c :: s.history }

/-- Ownership of one cell for area scoring: a stone counts for its
color; an empty cell counts for the single color bordering its empty
region, if any (spec §4.4 territory scoring). -/
def cellOwner (n : Nat) (b : Nat → Option PlayerColor) (i : Nat) : Option PlayerColor :=
  match b i with
  | some c => some c
  | none =>
    let region := floodFill n b none (floodFuel n) [i] []
    let bB := region.any fun p => (neighbors n p).any fun q => b q = some .black
    let bW := region.any fun p => (neighbors n p).any fun q => b q = some .white
    if bB ∧ ¬bW then some .black
    else if bW ∧ ¬bB then some .white
    else none

/-- Area score of one color: stones on board plus surrounded territory. -/
def scoreOf (n : Nat) (b : Nat → Option PlayerColor) (c : PlayerColor) : Nat :=
  (List.range (n * n)).countP fun i => decide (cellOwner n b i = some c)

/-- Result of a Go game ended by two consecutive passes (spec §4.4). -/
def scoreGame (n : Nat) (b : Nat → Option PlayerColor) : GameResult :=
  let bs := scoreOf n b .black
  let ws := scoreOf n b .white
  if ws < bs then ⟨some .black, .passScored⟩
  else if bs < ws then ⟨some .white, .passScored⟩
  else ⟨none, .passScored⟩

/-- Modelled from the spec: `pass_turn` (§4.2/§4.4) — unsupported for
Gomoku; for Go records the pass, toggles the player, and after two
consecutive passes finishes the game via area scoring. -/
def passTurnEngine (s : EngineState) : Except RuleErr EngineState :=
  match s.status with
  | .finished _ => .error .gameFinished
  | .inProgress =>
    match s.variant with
    | .gomoku => .error .unsupportedOperation
    | .go =>
      let hist := HistEntry.passAct s.koMarker s.passCount s.currentPlayer :: s.history
      if 1 ≤ s.passCount then
        .ok { s with status := .finished (scoreGame s.size s.board)
                     passCount := s.passCount + 1
                     currentPlayer := opponent s.currentPlayer
                     history := hist
                     koMarker := none }
      else
        .ok { s with passCount := s.passCount + 1
                     currentPlayer := opponent s.currentPlayer
                     history := hist
                     koMarker := none }

/-- Modelled from the spec: the initial per-color allotments are
variant-defined configuration constants the spec leaves open; chosen
here as `size * size` stones and 3 undos per color. -/
def initLedger (size : Nat) : ResourceLedger :=
  ⟨⟨size * size, 3⟩, ⟨size * size, 3⟩⟩

/-- Modelled from the spec: a fresh engine of the given variant on an
empty board, Black to move, status InProgress (`create_engine` of
`core/controller.py` dispatching to `GomokuEngine` / `GoEngine`). -/
def createEngine (gt : GameType) (size : Nat) : EngineState :=
  { variant := gt
    size := size
    board := fun _ => none
    ledger := initLedger size
    history := []
    currentPlayer := .black
    status := .inProgress
    koMarker := none
    passCount := 0 }

/-- Modelled from the spec: `restart` (§4.2) — discard board, ledger
and history and reinitialize to the starting allotment, Black to move. -/
def restartEngine (s : EngineState) : EngineState :=
  createEngine s.variant s.size

/-- Stones of one color currently on the board (engine accessor). -/
def stonesOnBoard (e : EngineState) (c : PlayerColor) : Nat :=
  (List.range (e.size * e.size)).countP fun i => decide (e.board i = some c)

/-- The serialized engine state (`state` value of a save file), a
structurally typed record of optional fields so that missing fields of
a loaded record are representable.  Modelled from the spec: the codec
of §4.5 (variant tag, board size, flat board contents, per-color
counters, current player, status, ko marker and pass count). -/
structure StateRec where
  board_size : Option Nat := none
  game_tag : Option String := none
  cells : Option (List (Option PlayerColor)) := none
  black_stones : Option Nat := none
  white_stones : Option Nat := none
  black_undos : Option Nat := none
  white_undos : Option Nat := none
  current_player : Option PlayerColor := none
  status_rec : Option Status := none
  ko : Option (Option Nat) := none
  pass_count : Option Nat := none
deriving DecidableEq

/-- Modelled from the spec: `serialize` (§4.2/§4.5) — produce the full
codec record from the engine state; the board size is embedded in the
record.  The move history is truncated on serialization (the spec
allows this as a documented design choice). -/
def serialize (e : EngineState) : StateRec :=
  { board_size := some e.size
    game_tag := some e.variant.value
    cells := some ((List.range (e.size * e.size)).map e.board)
    black_stones := some e.ledger.black.stonesRemaining
    white_stones := some e.ledger.white.stonesRemaining
    black_undos := some e.ledger.black.undosRemaining
    white_undos := some e.ledger.white.undosRemaining
    current_player := some e.currentPlayer
    status_rec := some e.status
    ko := some e.koMarker
    pass_count := some e.passCount }

/-- Controller-level failure values.  `noActiveGame` and `gomokuNoPass`
are the controller's own `ValueError`s, `rule` wraps an engine error,
`ioError` is an `IOError` with its message, and `attrError` stands for
the uncaught exception raised when the save record's `state` value is
not a record. -/
inductive CtrlErr
  | noActiveGame
  | gomokuNoPass
  | rule (e : RuleErr)
  | ioError (m : String)
  | attrError
deriving DecidableEq

/-- Modelled from the spec: `deserialize` (§4.2/§4.5) — validate that
every codec field is present (else the save is corrupt) and rebuild the
engine state; the loaded history is empty (truncation choice). -/
def deserializeEngine (e : EngineState) (st : StateRec) : Except CtrlErr EngineState :=
  match st.board_size, st.game_tag, st.cells, st.black_stones, st.white_stones,
      st.black_undos, st.white_undos, st.current_player, st.status_rec, st.ko,
      st.pass_count with
  | some bs, some _, some cells, some bst, some wst, some bu, some wu, some cp,
      some strec, some km, some pc =>
    .ok { variant := e.variant
          size := bs
          board := fun i => (cells.getD i none)
          ledger := ⟨⟨bst, bu⟩, ⟨wst, wu⟩⟩
          history := []
          currentPlayer := cp
          status := strec
          koMarker := km
          passCount := pc }
  | _, _, _, _, _, _, _, _, _, _, _ => .error (.ioError "存档数据缺少必需字段")

/-- A value stored under one key of a save-file record. -/
inductive PayloadValue
  | null
  | str (s : String)
  | state (st : StateRec)
deriving DecidableEq

/-- A persisted save-file record: a finite key/value mapping, modelled
as an association list (`core/persistence.py` reads and writes it as a
whole; file I/O itself is outside the embedding). -/
def Payload := List (String × PayloadValue)

/-- Key lookup in a save-file record (Python `key in payload` /
`payload[key]`). -/
def lookupPayload (p : Payload) (k : String) : Option PayloadValue :=
  match p with
  | [] => none
  | (k', v) :: rest => if k = k' then some v else lookupPayload rest k

/-- Python `GameType(value)` applied to a loaded payload value: only a string
equal to a known variant tag parses (`GameType(None)` and non-strings
raise `ValueError` in Python). -/
def parseGameTypeValue : PayloadValue → Option GameType
  | .str s => gameTypeFromString s
  | _ => none

/-- The controller's own state (`GameController.__init__`): no engine,
no game type, board size 0. -/
@[ext] structure GameController where
  engine : Option EngineState
  gameType : Option GameType
  boardSize : Nat

/-- A fresh controller. -/
def initController : GameController :=
  { engine := none, gameType := none, boardSize := 0 }

/-- Python `GameController.start_game`: create the engine and record the
variant and board size. -/
def startGame (_ctrl : GameController) (gt : GameType) (size : Nat) : GameController :=
  { engine := some (createEngine gt size), gameType := some gt, boardSize := size }

/-- Python `GameController.place_stone`: require an engine, build the position
unchecked and forward it to the engine's `play_move`. -/
def placeStone (ctrl : GameController) (row col : Nat) : Except CtrlErr GameController :=
  match ctrl.engine with
  | none => .error .noActiveGame
  | some e =>
    match applyMove e row col with
    | .error r => .error (.rule r)
    | .ok e' => .ok { ctrl with engine := some e' }

/-- Python `GameController.pass_turn`: require an engine, reject unless the
active game type is Go, then forward to the engine. -/
def passTurn (ctrl : GameController) : Except CtrlErr GameController :=
  match ctrl.engine with
  | none => .error .noActiveGame
  | some e =>
    if ctrl.gameType ≠ some .go then .error .gomokuNoPass
    else
      match passTurnEngine e with
      | .error r => .error (.rule r)
      | .ok e' => .ok { ctrl with engine := some e' }

/-- Python `GameController.undo`: require an engine and forward. -/
def ctrlUndo (ctrl : GameController) : Except CtrlErr GameController :=
  match ctrl.engine with
  | none => .error .noActiveGame
  | some e =>
    match undoEngine e with
    | .error r => .error (.rule r)
    | .ok e' => .ok { ctrl with engine := some e' }

/-- Python `GameController.resign`: require an engine; the resigning color
defaults to the engine's current player. -/
def ctrlResign (ctrl : GameController) (c : Option PlayerColor) :
    Except CtrlErr GameController :=
  match ctrl.engine with
  | none => .error .noActiveGame
  | some e =>
    match resignEngine e (c.getD e.currentPlayer) with
    | .error r => .error (.rule r)
    | .ok e' => .ok { ctrl with engine := some e' }

/-- Python `GameController.restart`: require an engine and reinitialize it. -/
def ctrlRestart (ctrl : GameController) : Except CtrlErr GameController :=
  match ctrl.engine with
  | none => .error .noActiveGame
  | some e => .ok { ctrl with engine := some (restartEngine e) }

/-- Python `GameController.save`: require an engine and produce the two-field
record `{game_type, state}` handed to `persistence.save_game`. -/
def ctrlSave (ctrl : GameController) : Except CtrlErr Payload :=
  match ctrl.engine with
  | none => .error .noActiveGame
  | some e =>
    .ok [("game_type",
          match ctrl.gameType with
          | none => .null
          | some gt => .str gt.value),
         ("state", .state (serialize e))]

/-- Python `GameController.load`, statement by statement: validate the loaded
record (both keys present, known game type, board size present), then
replace the engine, the game type and the board size.  The result pairs
the controller state after the call with the raised error, if any, so
that partial mutation is observable. -/
def loadStep (ctrl : GameController) (payload : Payload) :
    GameController × Option CtrlErr :=
  match lookupPayload payload "game_type", lookupPayload payload "state" with
  | none, _ => (ctrl, some (.ioError "存档文件格式不正确"))
  | _, none => (ctrl, some (.ioError "存档文件格式不正确"))
  | some gtv, some stv =>
    match parseGameTypeValue gtv with
    | none => (ctrl, some (.ioError "存档中包含未知的游戏类型"))
    | some gt =>
      match stv with
      | .state st =>
        match st.board_size with
        | none => (ctrl, some (.ioError "存档文件缺少棋盘大小信息"))
        | some bs =>
          let e0 := createEngine gt bs
          match deserializeEngine e0 st with
          | .error err => ({ ctrl with engine := some e0 }, some err)
          | .ok e => ({ engine := some e, gameType := some gt, boardSize := bs }, none)
      | _ => (ctrl, some .attrError)

/-- Two-character right-aligned decimal rendering (Python `f"..."`
with width 2). -/
def pad2 (n : Nat) : String :=
  if n < 10 then " " ++ toString n else toString n

/-- The board text rendering built by `GameController.get_board_display`. -/
def boardDisplay (e : EngineState) : String :=
  let header := "    " ++ String.intercalate " "
    ((List.range e.size).map fun i => pad2 (i + 1))
  let rows := (List.range e.size).map fun row =>
    pad2 (row + 1) ++ " | " ++ String.intercalate "  "
      ((List.range e.size).map fun col =>
        match e.board (row * e.size + col) with
        | none => "."
        | some .black => "X"
        | some .white => "O")
  String.intercalate "\n" (header :: rows)

/-- Python `GameController.get_board_display`: require an engine, render. -/
def ctrlBoardDisplay (ctrl : GameController) : Except CtrlErr String :=
  match ctrl.engine with
  | none => .error .noActiveGame
  | some e => .ok (boardDisplay e)

/-- One color's entry of the controller's resource snapshot. -/
structure ResEntry where
  onBoard : Nat
  remaining : Nat
  undos : Nat
deriving DecidableEq

/-- The full resource snapshot of `get_resource_snapshot`. -/
structure Snapshot where
  black : ResEntry
  white : ResEntry
deriving DecidableEq

/-- Python `GameController.get_resource_snapshot`: require an engine and read
the three per-color counters. -/
def ctrlSnapshot (ctrl : GameController) : Except CtrlErr Snapshot :=
  match ctrl.engine with
  | none => .error .noActiveGame
  | some e =>
    .ok ⟨⟨stonesOnBoard e .black, e.ledger.black.stonesRemaining,
          e.ledger.black.undosRemaining⟩,
         ⟨stonesOnBoard e .white, e.ledger.white.stonesRemaining,
          e.ledger.white.undosRemaining⟩⟩

/-- Python `GameController._color_label`. -/
def colorLabel : PlayerColor → String
  | .black => "黑方"
  | .white => "白方"

/-- Python `GameController._game_type_label`. -/
def gameTypeLabel : Option GameType → String
  | some .gomoku => "五子棋"
  | some .go => "围棋"
  | none => "未知游戏"

/-- Python `GameController._format_resource_line`. -/
def resourceLine (c : PlayerColor) (snap : Snapshot) : String :=
  let d := match c with | .black => snap.black | .white => snap.white
  colorLabel c ++ ": 在盘" ++ toString d.onBoard ++ "枚，库存" ++
    toString d.remaining ++ "枚，悔棋余量" ++ toString d.undos ++ "次"

/-- Python `GameController.get_status`: require an engine and assemble the
status line. -/
def ctrlStatus (ctrl : GameController) : Except CtrlErr String :=
  match ctrl.engine with
  | none => .error .noActiveGame
  | some e =>
    match ctrlSnapshot ctrl with
    | .error err => .error err
    | .ok snap =>
      let base := [
        "游戏: " ++ gameTypeLabel ctrl.gameType ++ " " ++ toString ctrl.boardSize
          ++ "x" ++ toString ctrl.boardSize,
        "当前行棋方: " ++ colorLabel e.currentPlayer,
        resourceLine .black snap,
        resourceLine .white snap]
      let parts :=
        match e.status with
        | .inProgress => base
        | .finished r =>
          base ++ [(match r.winner with
                    | none => "结果: 平局"
                    | some w => "胜者: " ++ colorLabel w),
                   "结束原因: " ++ reasonText r.reason]
      .ok (String.intercalate " | " parts)
where
  /-- Rendering of an end reason for the status line. -/
  reasonText : EndReason → String
    | .fiveInRow => "five-in-a-row"
    | .resignation => "resignation"
    | .passScored => "two-consecutive-passes-scored"
    | .boardFullDraw => "board-full-draw"

/-- CLI / GUI user-input failure values (spec §7 UserInputError). -/
inductive CliErr
  | usage
  | badGameType
  | sizeNotInt
  | sizeRange
  | coordNotInt
  | coordNotPositive
deriving DecidableEq

/-- Whitespace recognized by Python's `int` around a numeral. -/
def isPySpace (c : Char) : Bool :=
  c = ' ' ∨ c = '\t' ∨ c = '\n' ∨ c = '\r'

/-- Parse a nonempty run of decimal digits. -/
def parseDigits : List Char → Option Nat
  | [] => none
  | cs => go cs 0
where
  go : List Char → Nat → Option Nat
    | [], acc => some acc
    | c :: rest, acc =>
      if '0' ≤ c ∧ c ≤ '9' then go rest (acc * 10 + (c.toNat - '0'.toNat))
      else none

/-- Python's `int(string)`: optional surrounding whitespace, optional
sign, then decimal digits; anything else raises `ValueError`. -/
def pyInt (s : String) : Option Int :=
  let t := ((s.toList.dropWhile isPySpace).reverse.dropWhile isPySpace).reverse
  match t with
  | '-' :: rest => (parseDigits rest).map fun n => -(n : Int)
  | '+' :: rest => (parseDigits rest).map fun n => (n : Int)
  | cs => (parseDigits cs).map fun n => (n : Int)

/-- Python `ConsoleClient._parse_coordinate`: an integer, required positive. -/
def parseCoordinate (s : String) : Except CliErr Int :=
  match pyInt s with
  | none => .error .coordNotInt
  | some v => if v ≤ 0 then .error .coordNotPositive else .ok v

/-- The argument handling of `ConsoleClient._cmd_move`: two coordinates,
each parsed 1-indexed, converted to the 0-indexed pair handed to
`place_stone`. -/
def cmdMoveParse (args : List String) : Except CliErr (Nat × Nat) :=
  match args with
  | [a0, a1] =>
    match parseCoordinate a0 with
    | .error e => .error e
    | .ok r =>
      match parseCoordinate a1 with
      | .error e => .error e
      | .ok c => .ok ((r - 1).toNat, (c - 1).toNat)
  | _ => .error .usage

/-- The argument handling of `ConsoleClient._cmd_start`: a game type
and a board size, the size bounded to `[8, 19]`. -/
def cmdStartParse (args : List String) : Except CliErr (GameType × Nat) :=
  match args with
  | [a0, a1] =>
    match gameTypeFromString a0 with
    | none => .error .badGameType
    | some gt =>
      match pyInt a1 with
      | none => .error .sizeNotInt
      | some sz =>
        if sz < 8 ∨ 19 < sz then .error .sizeRange
        else .ok (gt, sz.toNat)
  | _ => .error .usage

/-- A failure of the CLI `move` pipeline: either the CLI's own input
validation or an error propagated from the controller. -/
inductive CliFullErr
  | cli (e : CliErr)
  | fromCtrl (e : CtrlErr)
deriving DecidableEq

/-- Python `ConsoleClient._cmd_start` end to end: parse and validate the
arguments, then start the game on the controller. -/
def cliStart (ctrl : GameController) (args : List String) :
    Except CliFullErr GameController :=
  match cmdStartParse args with
  | .error e => .error (.cli e)
  | .ok (gt, size) => .ok (startGame ctrl gt size)

/-- Python `ConsoleClient._cmd_move` end to end: parse the coordinates, then
call `place_stone` with the 0-indexed pair. -/
def cliMove (ctrl : GameController) (args : List String) :
    Except CliFullErr GameController :=
  match cmdMoveParse args with
  | .error e => .error (.cli e)
  | .ok (r, c) =>
    match placeStone ctrl r c with
    | .error e => .error (.fromCtrl e)
    | .ok ctrl' => .ok ctrl'

/-- Python `GuiApp._read_board_size`: an integer in `[8, 19]`. -/
def readBoardSize (s : String) : Except CliErr Nat :=
  match pyInt s with
  | none => .error .sizeNotInt
  | some sz =>
    if sz < 8 ∨ 19 < sz then .error .sizeRange
    else .ok sz.toNat

/-- The index guard of `GuiApp._on_canvas_click`: the computed row and
column indices are forwarded to `place_stone` only when both lie in
`[0, size)`; out-of-range clicks are silently dropped. -/
def guiClickForward (size : Nat) (row col : Int) : Option (Nat × Nat) :=
  if 0 ≤ col ∧ col < size ∧ 0 ≤ row ∧ row < size then some (row.toNat, col.toNat)
  else none

/-- A state with the undo budget of one color decremented and nothing
else changed: the expected result of undoing a just-applied move. -/
def withUndoDec (s : EngineState) (c : PlayerColor) : EngineState :=
  { s with ledger := decUndos s.ledger c }

/-- A complete serialized state record claiming board size 5. -/
def st5 : StateRec :=
  { board_size := some 5
    game_tag := some "gomoku"
    cells := some (List.replicate 25 none)
    black_stones := some 10
    white_stones := some 10
    black_undos := some 3
    white_undos := some 3
    current_player := some .black
    status_rec := some .inProgress
    ko := some none
    pass_count := some 0 }

/-- A well-formed save record whose recorded board size is 5. -/
def pay5 : Payload := [("game_type", .str "gomoku"), ("state", .state st5)]

/-- A save record lacking the `state` key. -/
def payNoState : Payload := [("game_type", .str "gomoku")]

/-- A save record with an unknown game-type value. -/
def payUnknown : Payload := [("game_type", .str "chess"), ("state", .state st5)]

/-- A save record whose state lacks the board size. -/
def payNoSize : Payload :=
  [("game_type", .str "gomoku"), ("state", .state { st5 with board_size := none })]

/-- A controller running a 15 by 15 Gomoku game. -/
def ctrl15 : GameController := startGame initController .gomoku 15

/-- A controller running a 9 by 9 Gomoku game. -/
def ctrlG9 : GameController := startGame initController .gomoku 9

/-- A fresh 8 by 8 Gomoku engine. -/
def gomW : EngineState := createEngine .gomoku 8

/-- The engine state after Black plays at cell 0 of `gomW`. -/
def gomW' : EngineState :=
  { variant := .gomoku
    size := 8
    board := setCell (fun _ => none) 0 (some .black)
    ledger := ⟨⟨63, 3⟩, ⟨64, 3⟩⟩
    history := [.place 0 [] none 0 .black]
    currentPlayer := .white
    status := .inProgress
    koMarker := none
    passCount := 0 }

/-- A fresh 8 by 8 Gomoku engine whose players have no undos left. -/
def gomZ : EngineState :=
  { createEngine .gomoku 8 with ledger := ⟨⟨64, 0⟩, ⟨64, 0⟩⟩ }

/-- The engine state after Black plays at cell 0 of `gomZ`. -/
def gomZ' : EngineState :=
  { variant := .gomoku
    size := 8
    board := setCell (fun _ => none) 0 (some .black)
    ledger := ⟨⟨63, 0⟩, ⟨64, 0⟩⟩
    history := [.place 0 [] none 0 .black]
    currentPlayer := .white
    status := .inProgress
    koMarker := none
    passCount := 0 }

theorem removeAll_apply (caps : List Nat) (b : Nat → Option PlayerColor) (j : Nat) :
    removeAll b caps j = if j ∈ caps then none else b j := by
  induction caps generalizing b with
  | nil => simp [removeAll]
  | cons p ps ih =>
    simp only [removeAll]
    rw [ih]
    by_cases hj : j ∈ ps
    · simp [hj]
    · by_cases hjp : j = p
      · simp [hj, hjp, setCell]
      · simp [hj, hjp, setCell]

theorem restoreAll_map_apply (caps : List Nat) (k : PlayerColor)
    (b : Nat → Option PlayerColor) (j : Nat) :
    restoreAll b (caps.map fun p => (p, k)) j = if j ∈ caps then some k else b j := by
  induction caps generalizing b with
  | nil => simp [restoreAll]
  | cons p ps ih =>
    simp only [List.map_cons, restoreAll]
    rw [ih]
    by_cases hj : j ∈ ps
    · simp [hj]
    · by_cases hjp : j = p
      · simp [hj, hjp, setCell]
      · simp [hj, hjp, setCell]

theorem floodFill_mem (n : Nat) (b : Nat → Option PlayerColor)
    (target : Option PlayerColor) :
    ∀ (fuel : Nat) (stack acc : List Nat),
      (∀ q ∈ acc, b q = target) →
      ∀ q ∈ floodFill n b target fuel stack acc, b q = target := by
  intro fuel
  induction fuel with
  | zero =>
    intro stack acc hacc q hq
    simp only [floodFill] at hq
    exact hacc q hq
  | succ f ih =>
    intro stack acc hacc q hq
    cases stack with
    | nil =>
      simp only [floodFill] at hq
      exact hacc q hq
    | cons p rest =>
      simp only [floodFill] at hq
      by_cases hp : p ∈ acc
      · rw [if_pos hp] at hq
        exact ih rest acc hacc q hq
      · rw [if_neg hp] at hq
        by_cases hb : b p = target
        · rw [if_pos hb] at hq
          refine ih _ _ ?_ q hq
          intro q' hq'
          rcases List.mem_cons.mp hq' with h | h
          · subst h; exact hb
          · exact hacc q' h
        · rw [if_neg hb] at hq
          exact ih rest acc hacc q hq

theorem capturesLoop_mem (n : Nat) (b : Nat → Option PlayerColor) (k : PlayerColor) :
    ∀ (qs acc : List Nat), (∀ p ∈ acc, b p = some k) →
      ∀ p ∈ capturesLoop n b k qs acc, b p = some k := by
  intro qs
  induction qs with
  | nil =>
    intro acc hacc p hp
    simp only [capturesLoop] at hp
    exact hacc p hp
  | cons q qs ih =>
    intro acc hacc p hp
    simp only [capturesLoop] at hp
    by_cases hq : b q = some k
    · rw [if_pos hq] at hp
      by_cases hl : groupHasLiberty n b (floodFill n b (some k) (floodFuel n) [q] []) = true
      · rw [if_pos hl] at hp
        exact ih acc hacc p hp
      · rw [if_neg hl] at hp
        refine ih _ ?_ p hp
        intro p' hp'
        rcases List.mem_append.mp hp' with h | h
        · exact hacc p' h
        · exact floodFill_mem n b (some k) (floodFuel n) [q] []
            (by intro x hx; exact absurd hx (List.not_mem_nil x)) p' h
    · rw [if_neg hq] at hp
      exact ih acc hacc p hp

theorem computeCaptures_mem (n : Nat) (b : Nat → Option PlayerColor)
    (mover : PlayerColor) (i : Nat) :
    ∀ p ∈ computeCaptures n b mover i, b p = some (opponent mover) :=
  capturesLoop_mem n b (opponent mover) (neighbors n i) []
    (by intro p hp; exact absurd hp (List.not_mem_nil p))

theorem opponent_ne (c : PlayerColor) : opponent c ≠ c := by
  cases c <;> simp [opponent]

theorem incStones_decStones (l : ResourceLedger) (c : PlayerColor)
    (h : 0 < (l.res c).stonesRemaining) : incStones (decStones l c) c = l := by
  cases l with
  | mk bl wh =>
    cases bl with
    | mk bs bu =>
      cases wh with
      | mk ws wu =>
        cases c <;>
          simp only [incStones, decStones, ResourceLedger.res] at h ⊢ <;>
          simp [ResourceLedger.mk.injEq, PlayerRes.mk.injEq] <;>
          omega

theorem res_decStones_undos (l : ResourceLedger) (c d : PlayerColor) :
    ((decStones l c).res d).undosRemaining = (l.res d).undosRemaining := by
  cases c <;> cases d <;> rfl

theorem undo_applyCore (s : EngineState) (i : Nat) (caps : List Nat) (st : Status)
    (nko : Option Nat) (npass : Nat)
    (hs : s.status = .inProgress)
    (hst : st = .inProgress)
    (hemp : s.board i = none)
    (hcaps : ∀ p ∈ caps,
      setCell s.board i (some s.currentPlayer) p = some (opponent s.currentPlayer))
    (hstone : 0 < (s.ledger.res s.currentPlayer).stonesRemaining)
    (hund : 0 < (s.ledger.res s.currentPlayer).undosRemaining) :
    undoEngine (applyCore s i caps st nko npass) = .ok (withUndoDec s s.currentPlayer) := by
  subst hst
  simp only [undoEngine, applyCore]
  rw [res_decStones_undos, if_neg (Nat.pos_iff_ne_zero.mp hund)]
  refine congrArg Except.ok ?_
  have hb : setCell (restoreAll
        (removeAll (setCell s.board i (some s.currentPlayer)) caps)
        (caps.map fun p => (p, opponent s.currentPlayer))) i none = s.board := by
    funext j
    by_cases hji : j = i
    · subst hji
      simp only [setCell, if_pos rfl]
      exact hemp.symm
    · simp only [setCell, if_neg hji]
      rw [restoreAll_map_apply, removeAll_apply]
      by_cases hjc : j ∈ caps
      · simp only [if_pos hjc]
        have h := hcaps j hjc
        simp only [setCell, if_neg hji] at h
        exact h.symm
      · simp only [if_neg hjc, setCell, if_neg hji]
  have hl : decUndos (incStones (decStones s.ledger s.currentPlayer) s.currentPlayer)
      s.currentPlayer = decUndos s.ledger s.currentPlayer := by
    rw [incStones_decStones _ _ hstone]
  ext <;>
    simp only [withUndoDec, hb, hl, hs]

theorem cmdStartParse_ok_bounds (args : List String) (gt : GameType) (n : Nat)
    (h : cmdStartParse args = .ok (gt, n)) : 8 ≤ n ∧ n ≤ 19 := by
  cases args with
  | nil => simp [cmdStartParse] at h
  | cons a0 t =>
    cases t with
    | nil => simp [cmdStartParse] at h
    | cons a1 t2 =>
      cases t2 with
      | cons a2 t3 => simp [cmdStartParse] at h
      | nil =>
        simp only [cmdStartParse] at h
        cases hgt : gameTypeFromString a0 with
        | none => simp only [hgt] at h; simp at h
        | some g =>
          simp only [hgt] at h
          cases hsz : pyInt a1 with
          | none => simp only [hsz] at h; simp at h
          | some sz =>
            simp only [hsz] at h
            by_cases hr : sz < 8 ∨ 19 < sz
            · rw [if_pos hr] at h; simp at h
            · rw [if_neg hr] at h
              injection h with h'
              have h2 : sz.toNat = n := congrArg Prod.snd h'
              push_neg at hr
              omega

theorem readBoardSize_ok_bounds (s : String) (n : Nat)
    (h : readBoardSize s = .ok n) : 8 ≤ n ∧ n ≤ 19 := by
  simp only [readBoardSize] at h
  cases hsz : pyInt s with
  | none => simp only [hsz] at h; simp at h
  | some sz =>
    simp only [hsz] at h
    by_cases hr : sz < 8 ∨ 19 < sz
    · rw [if_pos hr] at h; simp at h
    · rw [if_neg hr] at h
      injection h with h'
      push_neg at hr
      omega

theorem loadStep_ok_size (ctrl : GameController) (payload : Payload)
    (ctrl' : GameController) (h : loadStep ctrl payload = (ctrl', none)) :
    ∃ st bs, lookupPayload payload "state" = some (.state st) ∧
      st.board_size = some bs ∧ ctrl'.boardSize = bs := by
  simp only [loadStep] at h
  cases hg : lookupPayload payload "game_type" with
  | none => simp only [hg] at h; simp at h
  | some gtv =>
    cases hs : lookupPayload payload "state" with
    | none => simp only [hg, hs] at h; simp at h
    | some stv =>
      simp only [hg, hs] at h
      cases hp : parseGameTypeValue gtv with
      | none => simp only [hp] at h; simp at h
      | some gt =>
        simp only [hp] at h
        cases stv with
        | null => simp at h
        | str s => simp at h
        | state st =>
          simp only [] at h
          cases hbs : st.board_size with
          | none => simp only [hbs] at h; simp at h
          | some bs =>
            simp only [hbs] at h
            cases hd : deserializeEngine (createEngine gt bs) st with
            | error err => simp only [hd] at h; simp at h
            | ok e =>
              simp only [hd] at h
              refine ⟨st, bs, rfl, hbs, ?_⟩
              have h1 : ctrl' = { engine := some e, gameType := some gt, boardSize := bs } :=
                (congrArg Prod.fst h).symm
              rw [h1]

/-- Claim C1, corrected.  The CLI `start` command and the GUI size entry
reject any board size outside `[8, 19]` before an engine is created, so
an engine started from either interface has its size in the bound; the
`load` path, however, only requires the board size to be present in the
save record and adopts whatever value it finds. -/
theorem sizeBound_paths :
    (∀ (args : List String) (gt : GameType) (n : Nat),
      cmdStartParse args = .ok (gt, n) → 8 ≤ n ∧ n ≤ 19) ∧
    (∀ (s : String) (n : Nat), readBoardSize s = .ok n → 8 ≤ n ∧ n ≤ 19) ∧
    (∀ (ctrl : GameController) (args : List String) (ctrl' : GameController),
      cliStart ctrl args = .ok ctrl' →
      ∃ e, ctrl'.engine = some e ∧ 8 ≤ e.size ∧ e.size ≤ 19) ∧
    (∀ (ctrl : GameController) (payload : Payload) (ctrl' : GameController),
      loadStep ctrl payload = (ctrl', none) →
      ∃ st bs, lookupPayload payload "state" = some (.state st) ∧
        st.board_size = some bs ∧ ctrl'.boardSize = bs) := by
  refine ⟨cmdStartParse_ok_bounds, readBoardSize_ok_bounds, ?_, loadStep_ok_size⟩
  intro ctrl args ctrl' h
  simp only [cliStart] at h
  cases hp : cmdStartParse args with
  | error e => simp only [hp] at h; simp at h
  | ok p =>
    obtain ⟨gt, n⟩ := p
    simp only [hp] at h
    injection h with h'
    subst h'
    obtain ⟨h8, h19⟩ := cmdStartParse_ok_bounds args gt n hp
    exact ⟨createEngine gt n, rfl, h8, h19⟩

/-- Witness for C1's theorem at concrete inputs: a CLI start with size
15, a GUI size entry of 12, and a CLI start of a Go game on size 9. -/
theorem sizeBound_paths_wit :
    ((8 : Nat) ≤ 15 ∧ (15 : Nat) ≤ 19) ∧ ((8 : Nat) ≤ 12 ∧ (12 : Nat) ≤ 19) ∧
    (∃ e, (startGame initController .go 9).engine = some e ∧ 8 ≤ e.size ∧ e.size ≤ 19) :=
  ⟨sizeBound_paths.1 ["gomoku", "15"] .gomoku 15 rfl,
   sizeBound_paths.2.1 "12" 12 rfl,
   sizeBound_paths.2.2.1 initController ["go", "9"] (startGame initController .go 9) rfl⟩

/-- Counterexample to claim C1 as stated: a well-formed save record
whose state carries board size 5 loads without error and installs an
engine of size 5, below the lower bound 8 — `load` never range-checks
the recovered size. -/
theorem sizeBound_load_cex :
    (loadStep initController pay5).2 = none ∧
    ((loadStep initController pay5).1.engine.map fun e => e.size) = some 5 ∧
    (loadStep initController pay5).1.boardSize = 5 ∧ 5 < 8 :=
  ⟨rfl, rfl, rfl, by decide⟩

/-- Claim C2, corrected.  The GUI click handler rejects computed indices
outside `[0, size)` before calling the controller, and the CLI rejects
non-positive coordinates; but a too-large CLI coordinate is forwarded
to the controller, which builds the position unchecked — the rejection
of out-of-range positions there comes from the engine's own bounds
check in `play_move`. -/
theorem positionValidation_amended :
    (∀ (size : Nat) (row col : Int) (r c : Nat),
      guiClickForward size row col = some (r, c) → r < size ∧ c < size) ∧
    (∀ (ctrl : GameController) (e : EngineState) (row col : Nat),
      ctrl.engine = some e → e.status = .inProgress → e.size ≤ row ∨ e.size ≤ col →
      placeStone ctrl row col = .error (.rule .outOfBounds)) ∧
    (∀ (s1 s2 : String) (v : Int), pyInt s1 = some v → v ≤ 0 →
      cmdMoveParse [s1, s2] = .error .coordNotPositive) := by
  refine ⟨?_, ?_, ?_⟩
  · intro size row col r c h
    simp only [guiClickForward] at h
    by_cases hc : 0 ≤ col ∧ col < size ∧ 0 ≤ row ∧ row < size
    · rw [if_pos hc] at h
      injection h with h'
      have hr : row.toNat = r := congrArg Prod.fst h'
      have hcn : col.toNat = c := congrArg Prod.snd h'
      omega
    · rw [if_neg hc] at h
      simp at h
  · intro ctrl e row col he hst hout
    have happ : applyMove e row col = .error .outOfBounds := by
      simp only [applyMove, hst]
      rw [if_neg (by omega)]
    simp only [placeStone, he, happ]
  · intro s1 s2 v h1 hv
    simp only [cmdMoveParse, parseCoordinate, h1]
    rw [if_pos hv]

/-- Witness for C2's theorem: a GUI click at (5, 5) on a size-9 board,
an out-of-range controller call on a 9 by 9 game, and the CLI move
coordinate "0". -/
theorem positionValidation_amended_wit :
    ((5 : Nat) < 9 ∧ (5 : Nat) < 9) ∧
    placeStone ctrlG9 10 2 = .error (.rule .outOfBounds) ∧
    cmdMoveParse ["0", "3"] = .error .coordNotPositive :=
  ⟨positionValidation_amended.1 9 5 5 5 5 rfl,
   positionValidation_amended.2.1 ctrlG9 (createEngine .gomoku 9) 10 2 rfl rfl
     (by decide),
   positionValidation_amended.2.2 "0" "3" 0 rfl (by decide)⟩

/-- Counterexample to claim C2 as stated: on a 15 by 15 game the CLI
command `move 100 100` is not rejected by the CLI — the parse succeeds
with the out-of-range pair (99, 99) and the pipeline fails only with
the engine's own OutOfBounds rule error. -/
theorem cli_unchecked_position_cex :
    cmdMoveParse ["100", "100"] = .ok (99, 99) ∧
    ((ctrl15.engine.map fun e => e.size) = some 15) ∧
    cliMove ctrl15 ["100", "100"] = .error (.fromCtrl (.rule .outOfBounds)) ∧
    (15 : Nat) ≤ 99 :=
  ⟨rfl, rfl, rfl, by decide⟩

/-- Claim C3, confirmed.  Loading fails with an IOError — a save-format
error surfaced to the caller — whenever the payload lacks the
`game_type` key, lacks the `state` key, carries a game-type value that
is not a known variant, or carries a state without a board size. -/
theorem load_format_errors :
    ∀ (ctrl : GameController) (payload : Payload),
      (lookupPayload payload "game_type" = none →
        ∃ m, (loadStep ctrl payload).2 = some (.ioError m)) ∧
      (lookupPayload payload "state" = none →
        ∃ m, (loadStep ctrl payload).2 = some (.ioError m)) ∧
      (∀ gtv, lookupPayload payload "game_type" = some gtv →
        parseGameTypeValue gtv = none →
        ∃ m, (loadStep ctrl payload).2 = some (.ioError m)) ∧
      (∀ st, lookupPayload payload "state" = some (.state st) →
        st.board_size = none →
        ∃ m, (loadStep ctrl payload).2 = some (.ioError m)) := by
  intro ctrl payload
  refine ⟨?_, ?_, ?_, ?_⟩
  · intro h
    exact ⟨"存档文件格式不正确", by simp [loadStep, h]⟩
  · intro h
    cases hg : lookupPayload payload "game_type" with
    | none => exact ⟨"存档文件格式不正确", by simp [loadStep, hg]⟩
    | some gtv => exact ⟨"存档文件格式不正确", by simp [loadStep, hg, h]⟩
  · intro gtv hg hp
    cases hs : lookupPayload payload "state" with
    | none => exact ⟨"存档文件格式不正确", by simp [loadStep, hg, hs]⟩
    | some stv => exact ⟨"存档中包含未知的游戏类型", by simp [loadStep, hg, hs, hp]⟩
  · intro st hs hbs
    cases hg : lookupPayload payload "game_type" with
    | none => exact ⟨"存档文件格式不正确", by simp [loadStep, hg]⟩
    | some gtv =>
      cases hp : parseGameTypeValue gtv with
      | none => exact ⟨"存档中包含未知的游戏类型", by simp [loadStep, hg, hs, hp]⟩
      | some gt => exact ⟨"存档文件缺少棋盘大小信息", by simp [loadStep, hg, hs, hp, hbs]⟩

/-- Witness for C3's theorem: the empty record, a record without
`state`, a record with game type "chess", and a record whose state has
no board size, all fail with an IOError. -/
theorem load_format_errors_wit :
    (∃ m, (loadStep initController []).2 = some (.ioError m)) ∧
    (∃ m, (loadStep initController payNoState).2 = some (.ioError m)) ∧
    (∃ m, (loadStep initController payUnknown).2 = some (.ioError m)) ∧
    (∃ m, (loadStep initController payNoSize).2 = some (.ioError m)) :=
  ⟨(load_format_errors initController []).1 rfl,
   (load_format_errors initController payNoState).2.1 rfl,
   (load_format_errors initController payUnknown).2.2.1 (.str "chess") rfl rfl,
   (load_format_errors initController payNoSize).2.2.2
     { st5 with board_size := none } rfl rfl⟩

/-- Claim C4, confirmed.  With an active game whose recorded type is
Gomoku, `pass_turn` fails with the controller's own unsupported-pass
ValueError — a controller-level error distinct from every engine error,
so the engine is never consulted and the returned failure leaves the
state unchanged; conversely a successful `pass_turn` is only possible
when the active game type is Go. -/
theorem pass_gomoku_unsupported :
    ∀ (ctrl : GameController) (e : EngineState), ctrl.engine = some e →
      (ctrl.gameType = some .gomoku → passTurn ctrl = .error .gomokuNoPass) ∧
      (∀ ctrl', passTurn ctrl = .ok ctrl' → ctrl.gameType = some .go) := by
  intro ctrl e he
  constructor
  · intro hgt
    simp only [passTurn, he]
    rw [if_pos (by rw [hgt]; simp)]
  · intro ctrl' hok
    by_cases hgo : ctrl.gameType = some .go
    · exact hgo
    · exfalso
      simp only [passTurn, he] at hok
      rw [if_pos hgo] at hok
      simp at hok

/-- Witness for C4's theorem: passing on a running 9 by 9 Gomoku game
fails with the controller's unsupported-pass error. -/
theorem pass_gomoku_unsupported_wit :
    passTurn ctrlG9 = .error .gomokuNoPass :=
  (pass_gomoku_unsupported ctrlG9 (createEngine .gomoku 9) rfl).1 rfl

/-- Claim C5, confirmed (against the engine modelled from the spec).
On every InProgress state and every color, `resign(color)` immediately
finishes the game with the opposite color as winner and resignation as
the reason, leaving the board untouched and ignoring whose turn it is;
on a finished state it fails with GameFinished. -/
theorem resign_finishes_opposite :
    ∀ (s : EngineState) (c : PlayerColor),
      (s.status = .inProgress →
        ∃ s', resignEngine s c = .ok s' ∧
          s'.status = .finished ⟨some (opponent c), .resignation⟩ ∧
          s'.board = s.board ∧ s'.currentPlayer = s.currentPlayer) ∧
      (∀ r, s.status = .finished r → resignEngine s c = .error .gameFinished) := by
  intro s c
  constructor
  · intro h
    refine ⟨{ s with
              status := .finished ⟨some (opponent c), .resignation⟩
              history := .resignAct c :: s.history }, ?_, rfl, rfl, rfl⟩
    simp only [resignEngine, h]
  · intro r h
    simp only [resignEngine, h]

/-- Witness for C5's theorem: Black resigning a fresh 8 by 8 Gomoku
game makes White the winner by resignation. -/
theorem resign_finishes_opposite_wit :
    ∃ s', resignEngine gomW .black = .ok s' ∧
      s'.status = .finished ⟨some (opponent .black), .resignation⟩ ∧
      s'.board = gomW.board ∧ s'.currentPlayer = gomW.currentPlayer :=
  (resign_finishes_opposite gomW .black).1 rfl

/-- Claim C6, corrected (against the engine modelled from the spec).
Undoing a just-applied legal move restores the state exactly — board
contents, ledger counters, current player, ko marker, pass counter and
history — except that the undo budget of the player who regains the
turn drops by one; this holds provided the move left the game in
progress and that player still had an undo available, the two cases the
spec's own undo failure rules carve out. -/
theorem undo_exact_inverse_amended (s : EngineState) (row col : Nat) (s' : EngineState)
    (happ : applyMove s row col = .ok s')
    (hip : s'.status = .inProgress)
    (hund : 0 < (s.ledger.res s.currentPlayer).undosRemaining) :
    undoEngine s' = .ok (withUndoDec s s.currentPlayer) := by
  cases hstat : s.status with
  | finished r =>
    simp only [applyMove, hstat] at happ
    exact absurd happ (by simp)
  | inProgress =>
    simp only [applyMove, hstat] at happ
    by_cases hb : row < s.size ∧ col < s.size
    · rw [if_pos hb] at happ
      by_cases hemp : s.board (row * s.size + col) = none
      · rw [if_pos hemp] at happ
        by_cases hstone : 0 < (s.ledger.res s.currentPlayer).stonesRemaining
        · rw [if_pos hstone] at happ
          cases hvar : s.variant with
          | gomoku =>
            rw [hvar] at happ
            simp only [] at happ
            injection happ with h
            subst h
            simp only [applyCore] at hip
            exact undo_applyCore s (row * s.size + col) [] _ s.koMarker s.passCount
              hstat hip hemp (by intro p hp; exact absurd hp (List.not_mem_nil p))
              hstone hund
          | go =>
            rw [hvar] at happ
            simp only [] at happ
            by_cases hko : s.koMarker = some (row * s.size + col)
            · rw [if_pos hko] at happ
              exact absurd happ (by simp)
            · rw [if_neg hko] at happ
              by_cases hlib : groupHasLiberty s.size
                  (removeAll (setCell s.board (row * s.size + col) (some s.currentPlayer))
                    (computeCaptures s.size
                      (setCell s.board (row * s.size + col) (some s.currentPlayer))
                      s.currentPlayer (row * s.size + col)))
                  (floodFill s.size
                    (removeAll (setCell s.board (row * s.size + col) (some s.currentPlayer))
                      (computeCaptures s.size
                        (setCell s.board (row * s.size + col) (some s.currentPlayer))
                        s.currentPlayer (row * s.size + col)))
                    (some s.currentPlayer) (floodFuel s.size) [row * s.size + col] []) = true
              · rw [if_pos hlib] at happ
                injection happ with h
                subst h
                exact undo_applyCore s (row * s.size + col) _ _ _ 0
                  hstat rfl hemp
                  (computeCaptures_mem s.size _ s.currentPlayer (row * s.size + col))
                  hstone hund
              · rw [if_neg hlib] at happ
                exact absurd happ (by simp)
        · rw [if_neg hstone] at happ
          exact absurd happ (by simp)
      · rw [if_neg hemp] at happ
        exact absurd happ (by simp)
    · rw [if_neg hb] at happ
      exact absurd happ (by simp)

/-- Witness for C6's theorem: Black plays cell (0,0) of a fresh 8 by 8
Gomoku game and the undo restores the initial state with one fewer undo
for Black. -/
theorem undo_exact_inverse_amended_wit :
    applyMove gomW 0 0 = .ok gomW' ∧
    undoEngine gomW' = .ok (withUndoDec gomW .black) :=
  ⟨rfl, undo_exact_inverse_amended gomW 0 0 gomW' rfl rfl (by decide)⟩

/-- Counterexample to claim C6 as stated: in a legal position whose
mover has no undos left, the move applies but the subsequent undo fails
with UndoExhausted instead of reproducing the prior state, so undo is
not an exact inverse on every InProgress state. -/
theorem undo_exhausted_cex :
    gomZ.status = .inProgress ∧
    applyMove gomZ 0 0 = .ok gomZ' ∧
    undoEngine gomZ' = .error .undoExhausted :=
  ⟨rfl, rfl, rfl⟩

/-- Claim C7, confirmed (serialization modelled from the spec's codec).
For every active game, `save` produces exactly the two-field record
whose `game_type` key holds the active variant's tag and whose `state`
key holds the engine's serialized state, and that state embeds the
engine's board size for `load` to recover. -/
theorem save_record_shape :
    ∀ (ctrl : GameController) (e : EngineState) (gt : GameType),
      ctrl.engine = some e → ctrl.gameType = some gt →
      ctrlSave ctrl = .ok [("game_type", .str gt.value), ("state", .state (serialize e))] ∧
      (serialize e).board_size = some e.size := by
  intro ctrl e gt he hgt
  constructor
  · simp only [ctrlSave, he, hgt]
  · rfl

/-- Witness for C7's theorem: saving the running 9 by 9 Gomoku game. -/
theorem save_record_shape_wit :
    ctrlSave ctrlG9 = .ok [("game_type", .str GameType.gomoku.value),
      ("state", .state (serialize (createEngine .gomoku 9)))] ∧
    (serialize (createEngine .gomoku 9)).board_size =
      some (createEngine .gomoku 9).size :=
  save_record_shape ctrlG9 (createEngine .gomoku 9) .gomoku rfl rfl

/-- Claim C8, confirmed.  Every controller operation that needs an
active game fails with the controller's no-active-game ValueError when
the engine is absent, so a fresh controller fails cleanly instead of
dereferencing a missing engine. -/
theorem require_engine_guards :
    ∀ ctrl : GameController, ctrl.engine = none →
      (∀ row col, placeStone ctrl row col = .error .noActiveGame) ∧
      passTurn ctrl = .error .noActiveGame ∧
      ctrlUndo ctrl = .error .noActiveGame ∧
      (∀ c, ctrlResign ctrl c = .error .noActiveGame) ∧
      ctrlRestart ctrl = .error .noActiveGame ∧
      ctrlSave ctrl = .error .noActiveGame ∧
      ctrlBoardDisplay ctrl = .error .noActiveGame ∧
      ctrlStatus ctrl = .error .noActiveGame ∧
      ctrlSnapshot ctrl = .error .noActiveGame := by
  intro ctrl h
  refine ⟨?_, ?_, ?_, ?_, ?_, ?_, ?_, ?_, ?_⟩
  · intro row col; simp [placeStone, h]
  · simp [passTurn, h]
  · simp [ctrlUndo, h]
  · intro c; simp [ctrlResign, h]
  · simp [ctrlRestart, h]
  · simp [ctrlSave, h]
  · simp [ctrlBoardDisplay, h]
  · simp [ctrlStatus, h]
  · simp [ctrlSnapshot, h]

/-- Witness for C8's theorem: all nine operations fail with the
no-active-game error on the fresh controller. -/
theorem require_engine_guards_wit :
    placeStone initController 0 0 = .error .noActiveGame ∧
    passTurn initController = .error .noActiveGame ∧
    ctrlUndo initController = .error .noActiveGame ∧
    ctrlResign initController none = .error .noActiveGame ∧
    ctrlRestart initController = .error .noActiveGame ∧
    ctrlSave initController = .error .noActiveGame ∧
    ctrlBoardDisplay initController = .error .noActiveGame ∧
    ctrlStatus initController = .error .noActiveGame ∧
    ctrlSnapshot initController = .error .noActiveGame := by
  obtain ⟨h1, h2, h3, h4, h5, h6, h7, h8, h9⟩ := require_engine_guards initController rfl
  exact ⟨h1 0 0, h2, h3, h4 none, h5, h6, h7, h8, h9⟩

/-- Claim C9, confirmed.  When `load` fails any of its four format
validations, the controller state after the call equals the state
before it: a rejected load never replaces or corrupts the running
game's engine, game type or board size. -/
theorem rejected_load_preserves :
    ∀ (ctrl : GameController) (payload : Payload),
      (lookupPayload payload "game_type" = none → (loadStep ctrl payload).1 = ctrl) ∧
      (lookupPayload payload "state" = none → (loadStep ctrl payload).1 = ctrl) ∧
      (∀ gtv, lookupPayload payload "game_type" = some gtv →
        parseGameTypeValue gtv = none → (loadStep ctrl payload).1 = ctrl) ∧
      (∀ st, lookupPayload payload "state" = some (.state st) →
        st.board_size = none → (loadStep ctrl payload).1 = ctrl) := by
  intro ctrl payload
  refine ⟨?_, ?_, ?_, ?_⟩
  · intro h; simp [loadStep, h]
  · intro h
    cases hg : lookupPayload payload "game_type" with
    | none => simp [loadStep, hg]
    | some gtv => simp [loadStep, hg, h]
  · intro gtv hg hp
    cases hs : lookupPayload payload "state" with
    | none => simp [loadStep, hg, hs]
    | some stv => simp [loadStep, hg, hs, hp]
  · intro st hs hbs
    cases hg : lookupPayload payload "game_type" with
    | none => simp [loadStep, hg]
    | some gtv =>
      cases hp : parseGameTypeValue gtv with
      | none => simp [loadStep, hg, hs, hp]
      | some gt => simp [loadStep, hg, hs, hp, hbs]

/-- Witness for C9's theorem: each of the four rejected loads leaves
the running 9 by 9 Gomoku controller unchanged. -/
theorem rejected_load_preserves_wit :
    (loadStep ctrlG9 []).1 = ctrlG9 ∧
    (loadStep ctrlG9 payNoState).1 = ctrlG9 ∧
    (loadStep ctrlG9 payUnknown).1 = ctrlG9 ∧
    (loadStep ctrlG9 payNoSize).1 = ctrlG9 :=
  ⟨(rejected_load_preserves ctrlG9 []).1 rfl,
   (rejected_load_preserves ctrlG9 payNoState).2.1 rfl,
   (rejected_load_preserves ctrlG9 payUnknown).2.2.1 (.str "chess") rfl rfl,
   (rejected_load_preserves ctrlG9 payNoSize).2.2.2
     { st5 with board_size := none } rfl rfl⟩

/-- Claim C10, confirmed.  The CLI `move` command parses 1-indexed
coordinates and hands the 0-indexed pair to `place_stone`; any
coordinate that is not a positive integer — unparsable or non-positive,
in either argument — is rejected with a user-input error, and a parse
failure never reaches the controller. -/
theorem cli_move_indexing :
    (∀ (s1 s2 : String) (r c : Int), pyInt s1 = some r → pyInt s2 = some c →
      0 < r → 0 < c → cmdMoveParse [s1, s2] = .ok ((r - 1).toNat, (c - 1).toNat)) ∧
    (∀ s1 s2 : String, pyInt s1 = none → cmdMoveParse [s1, s2] = .error .coordNotInt) ∧
    (∀ (s1 s2 : String) (v : Int), pyInt s1 = some v → v ≤ 0 →
      cmdMoveParse [s1, s2] = .error .coordNotPositive) ∧
    (∀ (s1 s2 : String) (r : Int), pyInt s1 = some r → 0 < r → pyInt s2 = none →
      cmdMoveParse [s1, s2] = .error .coordNotInt) ∧
    (∀ (s1 s2 : String) (r v : Int), pyInt s1 = some r → 0 < r → pyInt s2 = some v →
      v ≤ 0 → cmdMoveParse [s1, s2] = .error .coordNotPositive) ∧
    (∀ (ctrl : GameController) (args : List String) (e : CliErr),
      cmdMoveParse args = .error e → cliMove ctrl args = .error (.cli e)) := by
  refine ⟨?_, ?_, ?_, ?_, ?_, ?_⟩
  · intro s1 s2 r c h1 h2 hr hc
    simp only [cmdMoveParse, parseCoordinate, h1, h2]
    rw [if_neg (by omega), if_neg (by omega)]
  · intro s1 s2 h1
    simp only [cmdMoveParse, parseCoordinate, h1]
  · intro s1 s2 v h1 hv
    simp only [cmdMoveParse, parseCoordinate, h1]
    rw [if_pos hv]
  · intro s1 s2 r h1 hr h2
    simp only [cmdMoveParse, parseCoordinate, h1, h2]
    rw [if_neg (by omega)]
  · intro s1 s2 r v h1 hr h2 hv
    simp only [cmdMoveParse, parseCoordinate, h1, h2]
    rw [if_neg (by omega), if_pos hv]
  · intro ctrl args e h
    simp only [cliMove, h]

/-- Witness for C10's theorem: `move 3 4` reaches `place_stone(2, 3)`,
while the coordinate "x" and the coordinate "0" are rejected before the
controller is called. -/
theorem cli_move_indexing_wit :
    cmdMoveParse ["3", "4"] = .ok (((3 : Int) - 1).toNat, ((4 : Int) - 1).toNat) ∧
    cmdMoveParse ["x", "4"] = .error .coordNotInt ∧
    cmdMoveParse ["3", "0"] = .error .coordNotPositive ∧
    cliMove initController ["x", "4"] = .error (.cli .coordNotInt) :=
  ⟨cli_move_indexing.1 "3" "4" 3 4 rfl rfl (by decide) (by decide),
   cli_move_indexing.2.1 "x" "4" rfl,
   cli_move_indexing.2.2.2.2.1 "3" "0" 3 0 rfl (by decide) rfl (by decide),
   cli_move_indexing.2.2.2.2.2 initController ["x", "4"] .coordNotInt rfl⟩

end ChessPlatform
